import Mathlib

/-!
Verification of the token-discovery table pipeline
(`src/components/AxiomTradeTable.tsx`): the mock feed generator
(`mockTokens`, the `wsMockInterval` tick), and the sort/filter pipeline
(`useTokenDiscovery.sortedTokens`, `handleSort`, `App.filteredTokens`).
Numbers are modelled as rationals, JS strings as `String`, and the
per-tick `Math.random()` draws as an explicit stream `ℕ → ℚ`.
-/

namespace TradeTable

/-- The `chain` field type, `'ETH' | 'BSC' | 'SOL'`, of the `Token` type. -/
inductive Chain
  | eth
  | bsc
  | sol
deriving DecidableEq

/-- The `status` field type, `'New pairs' | 'Final Stretch' | 'Migrated'`. -/
inductive Status
  | newPairs
  | finalStretch
  | migrated
deriving DecidableEq

/-- The string literal each `Status` value is in the source. -/
def statusLabel : Status → String
  | .newPairs => "New pairs"
  | .finalStretch => "Final Stretch"
  | .migrated => "Migrated"

/-- The string literal each `Chain` value is in the source. -/
def chainLabel : Chain → String
  | .eth => "ETH"
  | .bsc => "BSC"
  | .sol => "SOL"

/-- The `Token` record type of the source. -/
structure Token where
  id : String
  name : String
  symbol : String
  chain : Chain
  pair : String
  status : Status
  marketCap : ℚ
  priceUSD : ℚ
  volume24h : ℚ
  liquidity : ℚ
  launchTime : ℚ
  score : ℚ
deriving DecidableEq

/-- The `trend` component of `PriceState`. -/
inductive Trend
  | up
  | down
  | neutral
deriving DecidableEq

/-- The `PriceState` record type of the source: the previously observed
price and the trend classification. -/
structure PriceState where
  priceUSD : ℚ
  trend : Trend
deriving DecidableEq

/-- The sortable keys of `Token` (`keyof Token`). -/
inductive SortKey
  | id
  | name
  | symbol
  | chain
  | pair
  | status
  | marketCap
  | priceUSD
  | volume24h
  | liquidity
  | launchTime
  | score
deriving DecidableEq

/-- Sort direction, `'asc' | 'desc'`. -/
inductive Direction
  | asc
  | desc
deriving DecidableEq

/-- The `SortState` record type: active key (or null) and direction. -/
structure SortState where
  key : Option SortKey
  direction : Direction
deriving DecidableEq

/-- A JS value read off a token by key: a number or a string. -/
inductive JsVal
  | num (x : ℚ)
  | str (s : String)
deriving DecidableEq

/-- The value `token[key]` the comparator reads, with its JS runtime type. -/
def tokenVal (t : Token) : SortKey → JsVal
  | .id => .str t.id
  | .name => .str t.name
  | .symbol => .str t.symbol
  | .chain => .str (chainLabel t.chain)
  | .pair => .str t.pair
  | .status => .str (statusLabel t.status)
  | .marketCap => .num t.marketCap
  | .priceUSD => .num t.priceUSD
  | .volume24h => .num t.volume24h
  | .liquidity => .num t.liquidity
  | .launchTime => .num t.launchTime
  | .score => .num t.score

/-- The test `typeof token[key] === 'string'`. -/
def isStrVal : JsVal → Bool
  | .str _ => true
  | .num _ => false

/-- Model of `String.prototype.localeCompare` under the en-US locale,
returning the sign of the comparison. On the ASCII labels compared in this
development (status labels starting with distinct uppercase letters) the
locale-aware order coincides with code-point order, which is what we use
(`String.lt` is exactly lexicographic order on `String.data`). -/
def localeCompare (a b : String) : Int :=
  if a.data < b.data then -1 else if b.data < a.data then 1 else 0

/-- The `order` array of the custom status branch of the comparator. -/
def statusOrder : List String := ["New pairs", "Final Stretch", "Migrated"]

/-- Model of JS `Array.prototype.indexOf`: first index of the element,
`-1` when absent. -/
def jsIndexOf : List String → String → Int
  | [], _ => -1
  | x :: xs, s =>
    if x = s then 0
    else
      let r := jsIndexOf xs s
      if r = -1 then -1 else r + 1

/-- The string a `JsVal` is coerced to in the status branch
(`aVal as string`); only ever reached on `.str` values. -/
def jsValStr : JsVal → String
  | .str s => s
  | .num x => toString x

/-- The comparator body of `sortedTokens` (lines 195–208): numeric values
compare by difference, string values by `localeCompare`, and only
otherwise does the `key === 'status'` arm compare by rank in
`statusOrder`. Because status values are strings, that final arm is
unreachable — exactly as in the source. -/
def comparison (key : SortKey) (a b : Token) : ℚ :=
  let aVal := tokenVal a key
  let bVal := tokenVal b key
  match aVal, bVal with
  | .num x, .num y => x - y
  | .str x, .str y => (localeCompare x y : ℚ)
  | _, _ =>
    if key = .status then
      ((jsIndexOf statusOrder (jsValStr aVal) - jsIndexOf statusOrder (jsValStr bVal) : Int) : ℚ)
    else 0

/-- The signed comparator, `direction === 'asc' ? comparison : -comparison`. -/
def jsComparator (key : SortKey) (direction : Direction) (a b : Token) : ℚ :=
  if direction = .asc then comparison key a b else -(comparison key a b)

/-- Stable insertion step: place `x` before the first element it compares
less-or-equal to. -/
def sortInsert (le : Token → Token → Bool) (x : Token) : List Token → List Token
  | [] => [x]
  | y :: ys => if le x y then x :: y :: ys else y :: sortInsert le x ys

/-- Stable sort (insertion sort), modelling the stable
`Array.prototype.sort` of ES2019+. -/
def stableSort (le : Token → Token → Bool) : List Token → List Token
  | [] => []
  | x :: xs => sortInsert le x (stableSort le xs)

/-- Model of `useTokenDiscovery.sortedTokens` (lines 189–212): identity when no key
is active, otherwise a stable sort under the JS comparator. -/
def sortedTokens (s : SortState) (tokens : List Token) : List Token :=
  match s.key with
  | none => tokens
  | some key =>
    stableSort (fun a b => decide (jsComparator key s.direction a b ≤ 0)) tokens

/-- Model of `useTokenDiscovery.handleSort` (lines 173–187): same key toggles the
direction; a new key defaults to ascending when
`typeof tokens[0]?.[key] === 'string'` or the key is `status`, else to
descending. -/
def handleSort (tokens : List Token) (prev : SortState) (key : SortKey) : SortState :=
  if prev.key = some key then
    { key := some key
    , direction := if prev.direction = .asc then .desc else .asc }
  else
    { key := some key
    , direction :=
        if (match tokens.head? with
            | some t => isStrVal (tokenVal t key)
            | none => false) || decide (key = .status)
        then .asc else .desc }

/-- The `activeTab` selection: `'All'` or one of the three stages. -/
inductive Tab
  | all
  | stage (s : Status)
deriving DecidableEq

/-- Model of `App.filteredTokens` (lines 616–619): the whole sorted list under
`'All'`, otherwise the records whose status equals the active tab. -/
def filteredTokens (tab : Tab) (sorted : List Token) : List Token :=
  match tab with
  | .all => sorted
  | .stage s => sorted.filter (fun t => decide (t.status = s))

/-- The new price of one record under one tick:
`token.priceUSD * (1 + (Math.random() - 0.5) * 0.02)` (line 138). -/
def newPriceOf (t : Token) (r1 : ℚ) : ℚ :=
  t.priceUSD * (1 + (r1 - 1 / 2) * (2 / 100))

/-- Trend classification of line 141–142:
`newPrice > old ? 'up' : newPrice < old ? 'down' : 'neutral'`. -/
def trendOf (newP oldP : ℚ) : Trend :=
  if newP > oldP then .up else if newP < oldP then .down else .neutral

/-- The per-record body of the `wsMockInterval` tick (lines 136–154):
returns the updated record (new price, perturbed volume, all else kept)
and the observation written into `priceHistory` (the pre-tick price and
the trend). `r1` is the price draw, `r2` the volume draw. -/
def tickToken (t : Token) (r1 r2 : ℚ) : Token × PriceState :=
  let newPrice := newPriceOf t r1
  ( { t with
      priceUSD := newPrice
    , volume24h := t.volume24h * (1 + (r2 - 1 / 2) * (5 / 100)) }
  , { priceUSD := t.priceUSD, trend := trendOf newPrice t.priceUSD } )

/-- The observation map `priceHistory`, as an association list in which
the head shadows later entries — prepending models the object-spread
override `{...prev, [token.id]: obs}`; lookups use `List.lookup`. -/
abbrev History := List (String × PriceState)

/-- The `data.map(...)` pass of the tick, walking the list left to right with the
running token index `i`; the `i`-th record consumes draws `2*i` (price)
and `2*i + 1` (volume), and its observation is prepended to the history
before later records are processed, as the source's `setPriceHistory`
updater runs per record in list order. -/
def tickAux (r : ℕ → ℚ) : List Token → ℕ → History → List Token × History
  | [], _, hist => ([], hist)
  | t :: ts, i, hist =>
    let p := tickToken t (r (2 * i)) (r (2 * i + 1))
    let rest := tickAux r ts (i + 1) ((t.id, p.2) :: hist)
    (p.1 :: rest.1, rest.2)

/-- One `wsMockInterval` tick over the whole list (lines 135–158), with
`hist` the `priceHistory` before the tick. -/
def tick (l : List Token) (r : ℕ → ℚ) (hist : History) : List Token × History :=
  tickAux r l 0 hist

/-- All fields of a record other than `priceUSD` and `volume24h`. -/
def frame (t : Token) :
    String × String × String × Chain × String × Status × ℚ × ℚ × ℚ × ℚ :=
  (t.id, t.name, t.symbol, t.chain, t.pair, t.status,
   t.marketCap, t.liquidity, t.launchTime, t.score)

/-- One entry of `mockTokens` (lines 82–95). `rPrice`, `rLaunch`, `rScore`
are the three `Math.random()` draws, in the evaluation order of the object
literal; `now` is `Date.now()`. `Math.floor` is `Int.floor`. -/
def mockToken (i : ℕ) (rPrice rLaunch rScore now : ℚ) : Token :=
  { id := "token-" ++ toString i
  , name := "Axiom Token " ++ toString (i + 1)
  , symbol := "AXM" ++ toString (i + 1)
  , chain := if i % 3 = 0 then .eth else if i % 3 = 1 then .bsc else .sol
  , pair := "WETH/AXM" ++ toString (i + 1)
  , status := if i < 5 then .newPairs else if i < 10 then .finalStretch else .migrated
  , marketCap := 1000000 + (i : ℚ) * 500000
  , priceUSD := 5 / 100 + rPrice * (3 / 2)
  , volume24h := 100000 + (i : ℚ) * 20000
  , liquidity := 50000 + (i : ℚ) * 10000
  , launchTime := now - ((i : ℚ) + 1) * 3600000 * rLaunch
  , score := ((⌊rScore * 100⌋ : ℤ) : ℚ) }

/-- Model of `initialize()`: the fixed-size mock list (`mockTokens`, 15 entries)
(line 82), with draw `3*i + j` feeding the `j`-th random of record `i`. -/
def mockTokens (r : ℕ → ℚ) (now : ℚ) : List Token :=
  (List.range 15).map fun i => mockToken i (r (3 * i)) (r (3 * i + 1)) (r (3 * i + 2)) now

/-- Stage sequence position `i % 3`, following the spec's words
("stage assigned by round-robin over three stages") for comparison with
the source's assignment. -/
def specRoundRobinStage (i : ℕ) : Status :=
  match i % 3 with
  | 0 => .newPairs
  | 1 => .finalStretch
  | _ => .migrated

/-- The stage the source actually assigns to index `i`: three consecutive
blocks of five (`i < 5 ? 'New pairs' : i < 10 ? 'Final Stretch' : 'Migrated'`). -/
def specBlockStage (i : ℕ) : Status :=
  if i < 5 then .newPairs else if i < 10 then .finalStretch else .migrated

/-- Whether the static type of `Token[key]` is a string; equals
`isStrVal (tokenVal t key)` for every token `t`. -/
def isStringKey : SortKey → Bool
  | .id => true
  | .name => true
  | .symbol => true
  | .chain => true
  | .pair => true
  | .status => true
  | .marketCap => false
  | .priceUSD => false
  | .volume24h => false
  | .liquidity => false
  | .launchTime => false
  | .score => false

/-- A concrete 'New pairs' record used in concrete evaluations. -/
def tokNew : Token :=
  { id := "a", name := "A", symbol := "A", chain := .eth, pair := "p"
  , status := .newPairs, marketCap := 1, priceUSD := 1, volume24h := 1
  , liquidity := 1, launchTime := 0, score := 1 }

/-- A concrete 'Migrated' record used in concrete evaluations. -/
def tokMigrated : Token :=
  { tokNew with id := "b", status := .migrated }

/-- C10: when the active sort key is `null`, `sortedTokens` returns the
input list itself, unchanged and in its original order. -/
theorem c10_sort_none_identity (d : Direction) (l : List Token) :
    sortedTokens { key := none, direction := d } l = l := rfl

/-- C8: applied to the empty record list (with the empty observation map),
`tick` returns an empty record list and an empty observation map; being a
total function, it raises no error. -/
theorem c8_tick_empty (r : ℕ → ℚ) : tick [] r [] = ([], []) := rfl

/-- C1: sorting by `status` ascending at the failing input: the record
with stage `'Migrated'` is ordered before the record with stage
`'New pairs'`, because status values are strings and hence caught by the
`localeCompare` branch of the comparator; the custom rank-order branch
(`order = ['New pairs', 'Final Stretch', 'Migrated']`) is unreachable. -/
theorem c1_status_sort_bug :
    sortedTokens { key := some .status, direction := .asc } [tokNew, tokMigrated] =
      [tokMigrated, tokNew] ∧ tokMigrated.status = .migrated ∧ tokNew.status = .newPairs := by
  decide

/-- Occurrence count of a record in a per-stage filter: unchanged when
the record has that stage, zero otherwise. -/
theorem count_filter_status (l : List Token) (s : Status) (t : Token) :
    (l.filter fun u => decide (u.status = s)).count t =
      if t.status = s then l.count t else 0 := by
  induction l with
  | nil => simp
  | cons a as ih =>
    simp only [List.filter_cons, decide_eq_true_eq]
    by_cases ha : a.status = s
    · rw [if_pos ha]
      by_cases hat : a = t
      · subst hat
        simp [List.count_cons, ih, ha]
      · simp [List.count_cons, hat, ih]
    · rw [if_neg ha]
      by_cases h : t.status = s
      · have hat : a ≠ t := fun he => ha (he ▸ h)
        simp [List.count_cons, hat, ih, h]
      · simp [ih, h]

/-- C5: filtering with `'All'` returns the sorted list unchanged;
filtering with a stage returns a sublist (so the sort's relative order is
preserved) containing exactly the records whose status equals the
selection, with multiplicities preserved. -/
theorem c5_filter_correct (l : List Token) (s : Status) :
    filteredTokens .all l = l ∧
    (filteredTokens (.stage s) l).Sublist l ∧
    (∀ t : Token, t ∈ filteredTokens (.stage s) l ↔ t ∈ l ∧ t.status = s) ∧
    (∀ t : Token, (filteredTokens (.stage s) l).count t =
      if t.status = s then l.count t else 0) := by
  refine ⟨rfl, List.filter_sublist l, fun t => ?_, fun t => count_filter_status l s t⟩
  simp [filteredTokens, List.mem_filter]

/-- The three per-stage filters concatenate to a permutation of the list:
every record's status is one of the three stages, so each record lands in
exactly one block of the concatenation. -/
theorem filter_three_stages_perm (l : List Token) :
    ((l.filter fun t => decide (t.status = .newPairs)) ++
     (l.filter fun t => decide (t.status = .finalStretch)) ++
     (l.filter fun t => decide (t.status = .migrated))).Perm l := by
  induction l with
  | nil => simp
  | cons a as ih =>
    rcases hs : a.status with _ | _ | _ <;>
      simp only [List.filter_cons, hs, decide_eq_true_eq, reduceCtorEq, if_false, if_true,
        reduceIte, List.cons_append]
    · exact ih.cons a
    · exact (List.perm_middle.append_right _).trans (ih.cons a)
    · exact List.perm_middle.trans (ih.cons a)

/-- C6: the three per-stage filtered subsets partition the token list:
their concatenation is a permutation of the full list (no duplicates or
omissions), each subset contains only records of its stage, and the
subsets are pairwise disjoint, so every record lies in exactly one. -/
theorem c6_stage_partition (l : List Token) :
    (filteredTokens (.stage .newPairs) l ++
     filteredTokens (.stage .finalStretch) l ++
     filteredTokens (.stage .migrated) l).Perm l ∧
    (∀ s : Status, ∀ t ∈ filteredTokens (.stage s) l, t.status = s) ∧
    (∀ s s' : Status, s ≠ s' →
      ∀ t ∈ filteredTokens (.stage s) l, t ∉ filteredTokens (.stage s') l) := by
  refine ⟨filter_three_stages_perm l, ?_, ?_⟩
  · intro s t ht
    have h' : t ∈ l ∧ t.status = s := by
      simpa [filteredTokens, List.mem_filter] using ht
    exact h'.2
  · intro s s' hss t ht ht'
    have h1 : t ∈ l ∧ t.status = s := by
      simpa [filteredTokens, List.mem_filter] using ht
    have h2 : t ∈ l ∧ t.status = s' := by
      simpa [filteredTokens, List.mem_filter] using ht'
    exact hss (h1.2.symm.trans h2.2)

/-- C6 witness: the partition properties evaluated on a concrete
two-record list. -/
theorem c6_stage_partition_witness :
    tokNew ∈ filteredTokens (.stage .newPairs) [tokNew, tokMigrated] ∧
    Status.newPairs ≠ Status.migrated ∧
    tokNew.status = Status.newPairs ∧
    tokNew ∉ filteredTokens (.stage .migrated) [tokNew, tokMigrated] :=
  ⟨by decide, by decide,
   (c6_stage_partition [tokNew, tokMigrated]).2.1 .newPairs tokNew (by decide),
   (c6_stage_partition [tokNew, tokMigrated]).2.2 .newPairs .migrated (by decide)
     tokNew (by decide)⟩

/-- The map `tickAux` keeps every field of every record except `priceUSD` and
`volume24h`, in order. -/
theorem tickAux_frame (r : ℕ → ℚ) (l : List Token) (k : ℕ) (hist : History) :
    (tickAux r l k hist).1.map frame = l.map frame := by
  induction l generalizing k hist with
  | nil => rfl
  | cons t ts ih =>
    simp only [tickAux, List.map_cons, ih]
    rfl

/-- C9: one tick preserves the list length and the ids in order (hence
the multiset of ids), and leaves every field other than `priceUSD` and
`volume24h` of every record unchanged. -/
theorem c9_tick_frame (l : List Token) (r : ℕ → ℚ) (hist : History) :
    (tick l r hist).1.length = l.length ∧
    (tick l r hist).1.map Token.id = l.map Token.id ∧
    (tick l r hist).1.map frame = l.map frame := by
  have h := tickAux_frame r l 0 hist
  refine ⟨?_, ?_, h⟩
  · have := congrArg List.length h
    simpa using this
  · have := congrArg (List.map Prod.fst) h
    simpa [List.map_map, Function.comp_def] using this

/-- C7: one per-record tick multiplies the price by a factor in
[0.99, 1.01] and, independently, the 24h volume by a factor in
[0.975, 1.025], whenever the two draws lie in [0, 1]. -/
theorem c7_tick_bounded (t : Token) (r1 r2 : ℚ)
    (h1l : 0 ≤ r1) (h1u : r1 ≤ 1) (h2l : 0 ≤ r2) (h2u : r2 ≤ 1) :
    (∃ f : ℚ, (tickToken t r1 r2).1.priceUSD = t.priceUSD * f ∧
      99 / 100 ≤ f ∧ f ≤ 101 / 100) ∧
    (∃ g : ℚ, (tickToken t r1 r2).1.volume24h = t.volume24h * g ∧
      975 / 1000 ≤ g ∧ g ≤ 1025 / 1000) :=
  ⟨⟨1 + (r1 - 1 / 2) * (2 / 100), rfl, by linarith, by linarith⟩,
   ⟨1 + (r2 - 1 / 2) * (5 / 100), rfl, by linarith, by linarith⟩⟩

/-- C7 witness: the bounds evaluated at a concrete record and concrete
draws 3/4 and 1/4. -/
theorem c7_tick_bounded_witness :
    ((0 : ℚ) ≤ 3 / 4 ∧ (3 : ℚ) / 4 ≤ 1 ∧ (0 : ℚ) ≤ 1 / 4 ∧ (1 : ℚ) / 4 ≤ 1) ∧
    ((∃ f : ℚ, (tickToken tokNew (3 / 4) (1 / 4)).1.priceUSD = tokNew.priceUSD * f ∧
        99 / 100 ≤ f ∧ f ≤ 101 / 100) ∧
     (∃ g : ℚ, (tickToken tokNew (3 / 4) (1 / 4)).1.volume24h = tokNew.volume24h * g ∧
        975 / 1000 ≤ g ∧ g ≤ 1025 / 1000)) :=
  ⟨⟨by norm_num, by norm_num, by norm_num, by norm_num⟩,
   c7_tick_bounded tokNew (3 / 4) (1 / 4) (by norm_num) (by norm_num) (by norm_num) (by norm_num)⟩

/-- Observations written by `tickAux` for records whose id differs from
`x` do not affect the lookup of `x`. -/
theorem tickAux_lookup_of_not_mem (r : ℕ → ℚ) (ts : List Token) (k : ℕ) (hist : History)
    (x : String) (hx : x ∉ ts.map Token.id) :
    List.lookup x (tickAux r ts k hist).2 = List.lookup x hist := by
  induction ts generalizing k hist with
  | nil => rfl
  | cons t ts ih =>
    have hxt : x ≠ t.id := by
      intro h
      exact hx (by simp [h])
    have hx' : x ∉ ts.map Token.id := fun h => hx (by simp [h])
    have hbeq : (x == t.id) = false := beq_eq_false_iff_ne.mpr hxt
    calc List.lookup x (tickAux r (t :: ts) k hist).2
        = List.lookup x ((t.id, (tickToken t (r (2 * k)) (r (2 * k + 1))).2) :: hist) :=
          ih (k + 1) _ hx'
      _ = List.lookup x hist := by simp [List.lookup, hbeq]

/-- The observation `tickAux` records for the `i`-th token (with the
running index starting at `k`): its pre-tick price and the trend of its
new price against it, provided ids are unique. -/
theorem tickAux_lookup_get (r : ℕ → ℚ) (l : List Token) (k : ℕ) (hist : History)
    (hnd : (l.map Token.id).Nodup) (i : ℕ) (hi : i < l.length) :
    List.lookup (l.get ⟨i, hi⟩).id (tickAux r l k hist).2 =
      some { priceUSD := (l.get ⟨i, hi⟩).priceUSD
           , trend := trendOf (newPriceOf (l.get ⟨i, hi⟩) (r (2 * (k + i))))
               (l.get ⟨i, hi⟩).priceUSD } := by
  induction l generalizing k hist i with
  | nil => exact absurd hi (Nat.not_lt_zero i)
  | cons t ts ih =>
    have hnd' : (ts.map Token.id).Nodup := (List.nodup_cons.mp (by simpa using hnd)).2
    cases i with
    | zero =>
      have hnotin : t.id ∉ ts.map Token.id := (List.nodup_cons.mp (by simpa using hnd)).1
      calc List.lookup ((t :: ts).get ⟨0, hi⟩).id (tickAux r (t :: ts) k hist).2
          = List.lookup t.id
              ((t.id, (tickToken t (r (2 * k)) (r (2 * k + 1))).2) :: hist) :=
            tickAux_lookup_of_not_mem r ts (k + 1) _ t.id hnotin
        _ = some { priceUSD := t.priceUSD
                 , trend := trendOf (newPriceOf t (r (2 * (k + 0)))) t.priceUSD } := by
            simp [List.lookup, tickToken]
    | succ j =>
      have hj : j < ts.length := Nat.lt_of_succ_lt_succ hi
      have h := ih (k + 1) ((t.id, (tickToken t (r (2 * k)) (r (2 * k + 1))).2) :: hist)
        hnd' j hj
      have harith : k + 1 + j = k + (j + 1) := by omega
      rw [harith] at h
      exact h

/-- C2: after one application of `tick` to a list with unique ids, the
observation map entry at the `i`-th record's id stores exactly that
record's pre-tick price, and a trend of `up` when the new price is
strictly greater than the old, `down` when strictly smaller, and
`neutral` when equal. -/
theorem c2_tick_observation (l : List Token) (r : ℕ → ℚ) (hist : History)
    (hnd : (l.map Token.id).Nodup) (i : ℕ) (hi : i < l.length) :
    List.lookup (l.get ⟨i, hi⟩).id (tick l r hist).2 =
      some { priceUSD := (l.get ⟨i, hi⟩).priceUSD
           , trend :=
               if newPriceOf (l.get ⟨i, hi⟩) (r (2 * i)) > (l.get ⟨i, hi⟩).priceUSD then .up
               else if newPriceOf (l.get ⟨i, hi⟩) (r (2 * i)) < (l.get ⟨i, hi⟩).priceUSD then .down
               else .neutral } := by
  have h := tickAux_lookup_get r l 0 hist hnd i hi
  rw [Nat.zero_add] at h
  exact h

/-- C2 witness: one concrete record with draw 3/4, whose observation is
the pre-tick price 1 with trend `up`. -/
theorem c2_tick_observation_witness :
    ([tokNew].map Token.id).Nodup ∧ 0 < [tokNew].length ∧
    List.lookup "a" (tick [tokNew] (fun _ => (3 : ℚ) / 4) []).2 =
      some { priceUSD := 1, trend := Trend.up } :=
  ⟨by decide, by decide, by
    have h := c2_tick_observation [tokNew] (fun _ => (3 : ℚ) / 4) [] (by decide) 0 (by decide)
    refine h.trans ?_
    norm_num [newPriceOf, tokNew]⟩

/-- C3 counterexample: with any draws, the record at index 1 of the
initial list has stage `'New pairs'`, not the stage at position
`1 % 3` of the stage sequence (`'Final Stretch'`). -/
theorem c3_round_robin_counterexample :
    ((mockTokens (fun _ => 1 / 2) 0).get ⟨1, by decide⟩).status = .newPairs ∧
    specRoundRobinStage 1 = .finalStretch ∧
    ((mockTokens (fun _ => 1 / 2) 0).get ⟨1, by decide⟩).status ≠ specRoundRobinStage 1 := by
  refine ⟨by decide, rfl, ?_⟩
  decide

/-- C3 amended: `initialize()` produces 15 records whose stages come in
three consecutive blocks of five — indices 0–4 `'New pairs'`, 5–9
`'Final Stretch'`, 10–14 `'Migrated'` — not in round-robin order. -/
theorem c3_block_stage (r : ℕ → ℚ) (now : ℚ) (i : ℕ)
    (hi : i < (mockTokens r now).length) :
    (mockTokens r now).length = 15 ∧
    ((mockTokens r now).get ⟨i, hi⟩).status = specBlockStage i := by
  constructor
  · simp [mockTokens]
  · simp [mockTokens, mockToken, specBlockStage, List.get_eq_getElem]

/-- C3 witness: the block assignment evaluated at index 0 of a concrete
instantiation. -/
theorem c3_block_stage_witness :
    0 < (mockTokens (fun _ => (1 : ℚ) / 2) 0).length ∧
    ((mockTokens (fun _ => (1 : ℚ) / 2) 0).length = 15 ∧
     ((mockTokens (fun _ => (1 : ℚ) / 2) 0).get ⟨0, by decide⟩).status = specBlockStage 0) :=
  ⟨by decide, c3_block_stage (fun _ => (1 : ℚ) / 2) 0 0 (by decide)⟩

/-- The runtime type test of `handleSort` agrees with the static type of
the key for every token. -/
theorem isStrVal_tokenVal (t : Token) (key : SortKey) :
    isStrVal (tokenVal t key) = isStringKey key := by
  cases key <;> rfl

/-- C4 counterexample: on the empty token list, clicking the textual key
`'name'` while the active key is `'marketCap'` resets the direction to
descending (because `typeof tokens[0]?.[key]` is `'undefined'`), where the
claim requires ascending. -/
theorem c4_empty_list_counterexample :
    handleSort [] { key := some .marketCap, direction := .desc } .name =
      { key := some .name, direction := .desc } ∧
    handleSort [] { key := some .marketCap, direction := .desc } .name ≠
      { key := some .name, direction := .asc } := by
  decide

/-- C4 amended: clicking the active key toggles the direction and keeps
the key; clicking a new key resets the direction to ascending exactly
when the token list is nonempty and the key holds string values, or the
key is the lifecycle-stage key — numeric keys, and every key other than
the stage key when the list is empty, reset to descending. -/
theorem c4_handle_sort (tokens : List Token) (prev : SortState) (key : SortKey) :
    (prev.key = some key →
      handleSort tokens prev key =
        { key := some key
        , direction := if prev.direction = .asc then .desc else .asc }) ∧
    (prev.key ≠ some key →
      handleSort tokens prev key =
        { key := some key
        , direction :=
            if (tokens ≠ [] ∧ isStringKey key = true) ∨ key = .status
            then .asc else .desc }) := by
  constructor
  · intro h
    simp [handleSort, h]
  · intro h
    simp only [handleSort, if_neg h]
    cases tokens with
    | nil => simp [decide_eq_true_eq]
    | cons t ts =>
      simp [isStrVal_tokenVal, decide_eq_true_eq]

/-- C4 witness: a new textual key on a nonempty list resets to
ascending. -/
theorem c4_handle_sort_witness :
    ({ key := some SortKey.marketCap, direction := Direction.desc } : SortState).key ≠
      some SortKey.name ∧
    handleSort [tokNew] { key := some .marketCap, direction := .desc } .name =
      { key := some .name, direction := .asc } :=
  ⟨by decide,
   ((c4_handle_sort [tokNew] { key := some .marketCap, direction := .desc } .name).2
     (by decide)).trans (by decide)⟩

end TradeTable
